import Mathlib

/-!
# mdframe `variable`: a shallow embedding of `include/io/mdframe/variable.hpp`

The class template `io::detail::variable<SupportedTypes...>` is embedded over an
arbitrary family of element types: `ι` is the set of supported element types
(the alternatives of the `boost::variant`), `V t` the values of the element
type `t`.  Operations that mutate `*this` and may throw are state passing: they
return the outcome of the call together with the object as it is afterwards.

`mdarray.hpp`, `dimension.hpp` and `traits.hpp` are included by the header but
are not among the sources; what the header uses of them is modelled from the
specification and marked as such.
-/

namespace mdframe

/-- Ways in which a call can fail. `out_of_range` is the bounds/arity failure of
the array, `bad_get` is `boost::bad_get` (the requested alternative is not the
active one), `terminate` is an exception leaving a `noexcept` function, which
ends the program in `std::terminate`, and `undefined_behaviour` is control
flowing off the end of a function that is declared to return a value. -/
inductive failure where
  | out_of_range : failure
  | bad_get : failure
  | terminate : failure → failure
  | undefined_behaviour : failure
  deriving DecidableEq, Repr

/-- Modelled from the spec: the class `dimension` (dimension.hpp is missing), "an
immutable named-size descriptor: a dimension has a name (string) and a length
(non-negative integer)". -/
structure dimension where
  m_name : String
  m_size : Nat
  deriving DecidableEq, Repr

/-- Modelled from the spec: `dimension::name()` (dimension.hpp is missing). -/
def dimension.name (d : dimension) : String := d.m_name

/-- Modelled from the spec: `dimension::size()` (dimension.hpp is missing), the
length of the dimension. -/
def dimension.size (d : dimension) : Nat := d.m_size

/-- Modelled from the spec: the class template `mdarray<T>` (mdarray.hpp is
missing), "a dense, rectangular array of a single element type": the per-axis
extents and the contiguous storage, with the invariant
"`storage.size() == product(shape)`". -/
structure mdarray (T : Type) where
  m_shape : List Nat
  m_data : List T
  h_size : m_data.length = m_shape.prod

/-- Modelled from the spec: construction of an `mdarray<T>` from a shape
(mdarray.hpp is missing): "allocates zero/default-initialized storage", of
`product(shape)` elements. -/
def mdarray.ctor {T : Type} [Inhabited T] (dsizes : List Nat) : mdarray T :=
  { m_shape := dsizes
    m_data := List.replicate dsizes.prod default
    h_size := List.length_replicate dsizes.prod default }

/-- Modelled from the spec: `mdarray::size()` (mdarray.hpp is missing), the
"total element count". -/
def mdarray.size {T : Type} (a : mdarray T) : Nat := a.m_data.length

/-- Modelled from the spec: `mdarray::rank()` (mdarray.hpp is missing), the
"number of axes (`shape.length()`)". -/
def mdarray.rank {T : Type} (a : mdarray T) : Nat := a.m_shape.length

/-- Modelled from the spec: `mdarray::shape()` (mdarray.hpp is missing), the
"read-only view of per-axis extents". -/
def mdarray.shape {T : Type} (a : mdarray T) : List Nat := a.m_shape

/-- Modelled from the spec: the row-major strides of a shape (mdarray.hpp is
missing): the stride of an axis is the product of the extents after it. -/
def mdarray.strides : List Nat → List Nat
  | [] => []
  | _ :: rest => rest.prod :: mdarray.strides rest

/-- Modelled from the spec: the linear offset of a multi-index (mdarray.hpp is
missing), "row-major linear offset = Σ (coordinate[i] × stride[i])". -/
def mdarray.index {T : Type} (a : mdarray T) (n : List Nat) : Nat :=
  (List.zipWith (fun c s => c * s) n (mdarray.strides a.m_shape)).sum

/-- Modelled from the spec: the bounds/arity check of `at` and `insert`
(mdarray.hpp is missing): the index has exactly `rank` coordinates and every
coordinate is inside `[0, shape[axis])`. -/
def mdarray.bounds_check {T : Type} (a : mdarray T) (n : List Nat) : Bool :=
  decide (n.length = a.rank) && (List.zipWith (fun c e => decide (c < e)) n a.m_shape).all id

/-- Modelled from the spec: `mdarray::at(index)` (mdarray.hpp is missing), the
"element at the given multi-index; fails with an out-of-bounds condition if any
coordinate is outside `[0, shape[axis])` or if the index arity does not equal
the rank". -/
def mdarray.at {T : Type} (a : mdarray T) (n : List Nat) : Except failure T :=
  if a.bounds_check n then
    match a.m_data[a.index n]? with
    | some x => .ok x
    | none => .error .out_of_range
  else .error .out_of_range

/-- Modelled from the spec: `mdarray::insert(index, value)` (mdarray.hpp is
missing), "writes `value` at the coordinate, same bounds/arity checks as `at`".
The result is the outcome and the array afterwards. -/
def mdarray.insert {T : Type} (a : mdarray T) (n : List Nat) (value : T) :
    Except failure Unit × mdarray T :=
  if a.bounds_check n then
    (.ok (), { a with
      m_data := a.m_data.set (a.index n) value
      h_size := (List.length_set a.m_data (a.index n) value).trans a.h_size })
  else (.error .out_of_range, a)

/-- Modelled from the spec: `traits::type_list<SupportedTypes...>::variant_container<mdarray>`
(traits.hpp is missing), the "closed tagged union over `MultiDimArray<T>` for
each `T`" of the supported types: the active element type and its array. -/
abbrev mdarray_variant {ι : Type} (V : ι → Type) : Type := (t : ι) × mdarray (V t)

/-- Modelled from the spec: `traits::type_list<SupportedTypes...>::variant_scalar`
(traits.hpp is missing), the "tagged union of bare scalar values, used as the
return type for type-erased element access". -/
abbrev variant_scalar {ι : Type} (V : ι → Type) : Type := (t : ι) × V t

/-- The implicit conversions of C++ between the supported element types, which
the call of a visitor applies to an argument passed by value: `conv U T` turns a
`U` into a `T`, and converting a type to itself changes nothing. -/
structure implicit_conversion (ι : Type) (V : ι → Type) where
  conv : (U T : ι) → V U → V T
  conv_self : ∀ (T : ι) (x : V T), conv T T x = x

/-- `boost::get<T>` on a variant of scalars: the value when `T` is the active
alternative, `boost::bad_get` otherwise. -/
def boost_get_scalar {ι : Type} [DecidableEq ι] {V : ι → Type} (T : ι)
    (operand : variant_scalar V) : Except failure (V T) :=
  if h : operand.1 = T then .ok (h ▸ operand.2) else .error .bad_get

/-- `boost::get<mdarray<T>>` on a variant of arrays: the array when `T` is the
active alternative, `boost::bad_get` otherwise. -/
def boost_get_mdarray {ι : Type} [DecidableEq ι] {V : ι → Type} (T : ι)
    (operand : mdarray_variant V) : Except failure (mdarray (V T)) :=
  if h : operand.1 = T then .ok (h ▸ operand.2) else .error .bad_get

namespace visitors

/-- Visitor `mdarray_size`: `v.size()` of the active array. -/
def mdarray_size {ι : Type} {V : ι → Type} (v : mdarray_variant V) : Nat := v.2.size

/-- Visitor `mdarray_rank`: `v.rank()` of the active array. -/
def mdarray_rank {ι : Type} {V : ι → Type} (v : mdarray_variant V) : Nat := v.2.rank

/-- Visitor `mdarray_shape`: `v.shape()` of the active array. -/
def mdarray_shape {ι : Type} {V : ι → Type} (v : mdarray_variant V) : List Nat := v.2.shape

/-- Visitor `mdarray_insert`: `v.insert(index, val)` on the active array, where
`val` is the bound argument converted to the array's `value_type` (the
parameter is declared `typename T::value_type val`). -/
def mdarray_insert {ι : Type} {V : ι → Type} (cv : implicit_conversion ι V)
    (v : mdarray_variant V) (index : List Nat) (U : ι) (val : V U) :
    Except failure Unit × mdarray_variant V :=
  let r := v.2.insert index (cv.conv U v.1 val)
  (r.1, ⟨v.1, r.2⟩)

/-- Visitor `mdarray_at`: `v.at(index)` of the active array, returned as a
`variant_scalar` holding the array's `value_type`. -/
def mdarray_at {ι : Type} {V : ι → Type} (v : mdarray_variant V) (index : List Nat) :
    Except failure (variant_scalar V) :=
  match mdarray.at v.2 index with
  | .ok val => .ok ⟨v.1, val⟩
  | .error e => .error e

end visitors

/-- The class template `variable<SupportedTypes...>`: the name, the variant of
arrays and the dimensions the variable spans. -/
structure Variable (ι : Type) (V : ι → Type) where
  m_name : String
  m_data : mdarray_variant V
  m_dimensions : List dimension

/-- `variable::hash::operator()`: `std::hash<std::string>` of the name. The
standard hash is a parameter; its result is a `std::size_t`, of 64 bits. -/
def Variable.hash {ι : Type} {V : ι → Type} (std_hash : String → Nat) (v : Variable ι V) : Nat :=
  std_hash v.m_name % 2 ^ 64

/-- `variable::variable()`: an empty name, `mdarray<int>{0}` (the array
constructed from the size list `{0}`) and no dimensions. `int_` is the element
type `int`, which the constructor names whatever the supported types are. -/
def Variable.default_ctor {ι : Type} (V : ι → Type) [∀ t, Inhabited (V t)] (int_ : ι) : Variable ι V :=
  { m_name := "", m_data := ⟨int_, mdarray.ctor [0]⟩, m_dimensions := [] }

/-- `variable::make<T>(name, dimensions)`: a default-constructed variable whose
name and dimensions are then assigned, and whose data becomes an `mdarray<T>`
of the sizes of the dimensions, pushed back in order. -/
def Variable.make {ι : Type} (V : ι → Type) [∀ t, Inhabited (V t)] (int_ : ι) (T : ι) (name : String)
    (dimensions : List dimension) : Variable ι V :=
  let var := Variable.default_ctor V int_
  let var := { var with m_name := name }
  let var := { var with m_dimensions := dimensions }
  let dsizes := dimensions.foldl (fun acc d => acc ++ [d.size]) []
  { var with m_data := ⟨T, mdarray.ctor dsizes⟩ }

/-- `variable::set_data<T>(data)`, both overloads: the body is the one statement
`this->m_data = data`, with no type or shape check, and then ends without a
`return` although the function is declared to return `variable&`. The outcome
of every call is therefore undefined behaviour; the object is what the
assignment of the body makes of it. -/
def Variable.set_data {ι : Type} {V : ι → Type} (v : Variable ι V) (T : ι) (data : mdarray (V T)) :
    Except failure Unit × Variable ι V :=
  (.error .undefined_behaviour, { v with m_data := ⟨T, data⟩ })

/-- `variable::values()`: the variant of arrays. -/
def Variable.values {ι : Type} {V : ι → Type} (v : Variable ι V) : mdarray_variant V := v.m_data

/-- `variable::values<T>()`: `boost::get<mdarray<T>>(m_data)`. The function is
`noexcept`, so a `boost::bad_get` leaving it ends the program. -/
def Variable.values_typed {ι : Type} [DecidableEq ι] {V : ι → Type} (v : Variable ι V) (T : ι) :
    Except failure (mdarray (V T)) :=
  match boost_get_mdarray T v.m_data with
  | .ok a => .ok a
  | .error e => .error (.terminate e)

/-- `variable::operator==`: the hashes of the two variables are compared. -/
def Variable.eq {ι : Type} {V : ι → Type} (std_hash : String → Nat) (lhs rhs : Variable ι V) : Bool :=
  Variable.hash std_hash lhs == Variable.hash std_hash rhs

/-- `variable::name()`. -/
def Variable.name {ι : Type} {V : ι → Type} (v : Variable ι V) : String := v.m_name

/-- `variable::dimensions()`: the names of the dimensions, pushed back in order. -/
def Variable.dimensions {ι : Type} {V : ι → Type} (v : Variable ι V) : List String :=
  v.m_dimensions.foldl (fun names dim => names ++ [dim.name]) []

/-- `variable::size()`: the visitor `mdarray_size` applied to `m_data`. -/
def Variable.size {ι : Type} {V : ι → Type} (v : Variable ι V) : Nat := visitors.mdarray_size v.m_data

/-- `variable::rank()`: the visitor `mdarray_rank` applied to `m_data`. -/
def Variable.rank {ι : Type} {V : ι → Type} (v : Variable ι V) : Nat := visitors.mdarray_rank v.m_data

/-- `variable::shape()`: the visitor `mdarray_shape` applied to `m_data`. -/
def Variable.shape {ι : Type} {V : ι → Type} (v : Variable ι V) : List Nat :=
  visitors.mdarray_shape v.m_data

/-- `variable::insert<T>(index, value)`: the visitor `mdarray_insert`, bound to
`index` and `value`, applied to `m_data`. The result is the outcome and the
object afterwards. -/
def Variable.insert {ι : Type} {V : ι → Type} (cv : implicit_conversion ι V) (v : Variable ι V)
    (T : ι) (index : List Nat) (value : V T) : Except failure Unit × Variable ι V :=
  let r := visitors.mdarray_insert cv v.m_data index T value
  (r.1, { v with m_data := r.2 })

/-- `variable::at(index)`: the visitor `mdarray_at`, bound to `index`, applied
to `m_data`. -/
def Variable.at {ι : Type} {V : ι → Type} (v : Variable ι V) (index : List Nat) :
    Except failure (variant_scalar V) :=
  visitors.mdarray_at v.m_data index

/-- `variable::at<T>(index)`: the visitor `mdarray_at` applied to `m_data`, then
`boost::get<T>` on the result. -/
def Variable.at_typed {ι : Type} [DecidableEq ι] {V : ι → Type} (v : Variable ι V) (T : ι)
    (index : List Nat) : Except failure (V T) :=
  match visitors.mdarray_at v.m_data index with
  | .ok result => boost_get_scalar T result
  | .error e => .error e

/-- An index is valid for a shape: it has as many coordinates as the shape has
axes, and every coordinate is below the extent of its axis. -/
def valid_index (shape index : List Nat) : Prop :=
  index.length = shape.length ∧
    ∀ (i c e : Nat), index[i]? = some c → shape[i]? = some e → c < e

/-- The element types of the instantiation `variable<int, double>` that the
examples use. -/
inductive scalar where
  | int : scalar
  | double : scalar
  deriving DecidableEq, Repr

/-- A finite `double` of the examples, as the dyadic number
`mantissa * 2 ^ exponent` it stands for. -/
structure double_value where
  mantissa : Int
  exponent : Int
  deriving DecidableEq, Repr

/-- Conversion of a `double` to `int`: the fractional part is discarded
(truncation toward zero). -/
def double_value.to_int (x : double_value) : Int :=
  match x.exponent with
  | Int.ofNat k => x.mantissa * ((2 ^ k : Nat) : Int)
  | Int.negSucc k => Int.tdiv x.mantissa ((2 ^ (k + 1) : Nat) : Int)

/-- The values of the example element types: an `int` is an integer, a
`double` a dyadic number. -/
@[reducible] def scalar.value : scalar → Type
  | .int => Int
  | .double => double_value

/-- Value initialisation of a `double`: zero. -/
instance double_value.inhabited : Inhabited double_value :=
  ⟨{ mantissa := 0, exponent := 0 }⟩

/-- Value initialisation of the example element types: zero. -/
instance scalar.value_inhabited (t : scalar) : Inhabited (scalar.value t) :=
  match t with
  | .int => ⟨(0 : Int)⟩
  | .double => double_value.inhabited

/-- The implicit conversions between `int` and `double`: an `int` becomes the
`double` of the same value, a `double` is truncated toward zero. -/
def scalar.convert : (U T : scalar) → scalar.value U → scalar.value T
  | .int, .int, x => x
  | .int, .double, x => ({ mantissa := x, exponent := 0 } : double_value)
  | .double, .int, x => double_value.to_int x
  | .double, .double, x => x

/-- The conversions of the example instantiation. -/
def scalar.conversion : implicit_conversion scalar scalar.value :=
  { conv := scalar.convert
    conv_self := fun T x => by cases T <;> rfl }

/-- The function `_Hash_bytes` of libstdc++ on a 64-bit target (the 64-bit
MurmurHash2 variant), on the bytes of the key: `shift_mix`. -/
def libstdcxx_shift_mix (v : Nat) : Nat := v ^^^ (v >>> 47)

/-- The multiplier of `_Hash_bytes`: `(0xc6a4a793 << 32) + 0x5bd1e995`. -/
def libstdcxx_mul : Nat := 0xc6a4a793 * 2 ^ 32 + 0x5bd1e995

/-- The little-endian load of up to eight bytes (`unaligned_load`, `load_bytes`). -/
def libstdcxx_load_bytes : List Nat → Nat
  | [] => 0
  | b :: rest => b + 256 * libstdcxx_load_bytes rest

/-- The main loop of `_Hash_bytes` over `count` words of eight bytes. -/
def libstdcxx_hash_words : Nat → List Nat → Nat → Nat
  | 0, _, hash => hash
  | count + 1, bytes, hash =>
    let data := libstdcxx_shift_mix (libstdcxx_load_bytes (bytes.take 8) * libstdcxx_mul % 2 ^ 64) *
      libstdcxx_mul % 2 ^ 64
    libstdcxx_hash_words count (bytes.drop 8) ((hash ^^^ data) * libstdcxx_mul % 2 ^ 64)

/-- The function `_Hash_bytes(ptr, len, seed)` of libstdc++ on a 64-bit target. -/
def libstdcxx_hash_bytes (bytes : List Nat) (seed : Nat) : Nat :=
  let len := bytes.length
  let hash := seed ^^^ (len * libstdcxx_mul % 2 ^ 64)
  let hash := libstdcxx_hash_words (len / 8) bytes hash
  let hash :=
    if len % 8 ≠ 0 then
      (hash ^^^ libstdcxx_load_bytes (bytes.drop (len / 8 * 8))) * libstdcxx_mul % 2 ^ 64
    else hash
  let hash := libstdcxx_shift_mix hash * libstdcxx_mul % 2 ^ 64
  libstdcxx_shift_mix hash

/-- The `std::hash<std::string>` of libstdc++ on a 64-bit target: `_Hash_bytes`
of the bytes (UTF-8) of the string with the seed `0xc70f6907`. It is the hash
at which the examples evaluate `operator==`. -/
def libstdcxx_hash (s : String) : Nat :=
  libstdcxx_hash_bytes (s.toList.flatMap (fun c => (String.utf8EncodeChar c).map UInt8.toNat))
    0xc70f6907

/-- A mutating call on a variable: `insert<U>(index, value)` or
`set_data<U>(data)`. -/
inductive mutation (ι : Type) (V : ι → Type) where
  | insert (U : ι) (index : List Nat) (value : V U) : mutation ι V
  | set_data (U : ι) (data : mdarray (V U)) : mutation ι V

/-- The variable after one mutating call: the object as the call left it (after
an `insert` that throws, the object unchanged; after a `set_data`, the object
as the assignment of its body made it). -/
def Variable.apply {ι : Type} {V : ι → Type} (cv : implicit_conversion ι V) (v : Variable ι V) :
    mutation ι V → Variable ι V
  | .insert U index value => (Variable.insert cv v U index value).2
  | .set_data U data => (Variable.set_data v U data).2

/-- The variable after a finite sequence of mutating calls, made in order. -/
def Variable.run {ι : Type} {V : ι → Type} (cv : implicit_conversion ι V) (v : Variable ι V)
    (calls : List (mutation ι V)) : Variable ι V :=
  calls.foldl (Variable.apply cv) v

/-- The variable of the examples: `make<double>("precip", [time: 3])` in
`variable<int, double>`. -/
def precip : Variable scalar scalar.value :=
  Variable.make scalar.value scalar.int scalar.double "precip"
    [{ m_name := "time", m_size := 3 }]

/-- The variable `precip` after `insert({0}, 1.5)` and `insert({1}, 2.0)`. -/
def precip_filled : Variable scalar scalar.value :=
  Variable.run scalar.conversion precip
    [.insert scalar.double [0] ({ mantissa := 3, exponent := -1 } : double_value),
      .insert scalar.double [1] ({ mantissa := 1, exponent := 1 } : double_value)]

end mdframe

/-!
# hymod: a shallow embedding of `models/hymod/include/Hymod.h`

The kernel is embedded in exact arithmetic, over a field `K` in the place of
`double`. `std::pow` and the conversion of a `double` to the `std::size_t` that
`resize` takes are parameters, and so is the class `LinearReservoir`, whose
header is not among the sources.
-/

namespace hymod

/-- The struct `hymod_params`. -/
structure hymod_params (K : Type) where
  max_storage : K
  a : K
  b : K
  Ks : K
  Kq : K
  n : K

/-- The struct `hymod_state`: the storage and the array `Sr` points to. -/
structure hymod_state (K : Type) where
  storage : K
  Sr : List K

/-- The struct `hymod_fluxes`. -/
structure hymod_fluxes (K : Type) where
  slow_flow_in : K
  slow_flow_out : K
  runnoff : K
  et_loss : K

/-- What the kernel uses of the arithmetic of `double`: `std::pow`, and the
conversion of a `double` to the `std::size_t` passed to `resize`, which takes
zero to zero. -/
structure arithmetic (K : Type) [Field K] where
  pow : K → K → K
  to_size : K → Nat
  to_size_zero : to_size 0 = 0

/-- What the kernel uses of the class `LinearReservoir` (LinearReservoir.h is
missing): the constructor from a coefficient and a storage, `response`, which
returns the outflow and changes the reservoir, and `get_storage`. -/
structure linear_reservoir (K : Type) where
  R : Type
  ctor : K → K → R
  response : R → K → K × R
  get_storage : R → K

/-- `hymod_kernel::calc_et`: the stub returns `0.0`. -/
def hymod_kernel.calc_et {K : Type} [Field K] (_soil_m : K) : K := 0

/-- The loop `runoff = nash_cascade[i].response(runoff)` over the cascade: the
final runoff and the reservoirs afterwards. -/
def hymod_kernel.route {K : Type} (lr : linear_reservoir K) :
    List lr.R → K → K × List lr.R
  | [], runoff => (runoff, [])
  | r :: rest, runoff =>
    let out := lr.response r runoff
    let tail := hymod_kernel.route lr rest out.1
    (tail.1, out.2 :: tail.2)

/-- `hymod_kernel::run`: one time step. The result is `new_state` and `fluxes`
as the call leaves them; there is none when the cascade is longer than one of
the arrays `state.Sr` and `new_state.Sr` that it reads and writes. -/
def hymod_kernel.run {K : Type} [Field K] (ar : arithmetic K) (lr : linear_reservoir K)
    (params : hymod_params K) (state : hymod_state K) (ks_fluxes : hymod_fluxes K)
    (new_state : hymod_state K) (input_flux : K) : Option (hymod_state K × hymod_fluxes K) :=
  let count := ar.to_size params.n
  if count ≤ state.Sr.length ∧ count ≤ new_state.Sr.length then
    let nash_cascade := (state.Sr.take count).map (fun s => lr.ctor params.Kq s)
    let storage := state.storage + input_flux
    let fs := 1 - ar.pow (1 - storage / params.max_storage) params.b
    let runoff := fs * params.a
    let slow := fs * (1 - params.a)
    let soil_m := storage - fs
    let et := hymod_kernel.calc_et soil_m
    let slow_flow_out := ks_fluxes.slow_flow_in
    let routed := hymod_kernel.route lr nash_cascade runoff
    some ({ storage := soil_m - et
            Sr := routed.2.map lr.get_storage ++ new_state.Sr.drop count },
          { slow_flow_in := slow
            slow_flow_out := slow_flow_out
            runnoff := routed.1
            et_loss := et })
  else none

/-- The arithmetic of the examples, on rationals: `pow` with the exponent
truncated to a natural number, sizes by truncation. -/
def rat_arithmetic : arithmetic ℚ :=
  { pow := fun x y => x ^ (Int.toNat (Int.tdiv y.num y.den))
    to_size := fun x => Int.toNat (Int.tdiv x.num x.den)
    to_size_zero := by simp }

/-- A linear reservoir for the examples: the storage alone, an inflow is added
to it and the coefficient's share of it flows out. -/
def rat_reservoir : linear_reservoir ℚ :=
  { R := ℚ × ℚ
    ctor := fun k s => (k, s)
    response := fun r inflow => (r.1 * (r.2 + inflow), (r.1, (1 - r.1) * (r.2 + inflow)))
    get_storage := fun r => r.2 }

end hymod

namespace mdframe

/-! ## Lemmas on the array -/

theorem foldl_push_back {α β : Type} (f : α → β) (l : List α) (init : List β) :
    l.foldl (fun acc d => acc ++ [f d]) init = init ++ l.map f := by
  induction l generalizing init with
  | nil => simp
  | cons x xs ih => simp [ih]

theorem bounds_check_iff_zip (shape index : List Nat) :
    (decide (index.length = shape.length) &&
      (List.zipWith (fun c e => decide (c < e)) index shape).all id) = true ↔
      valid_index shape index := by
  induction index generalizing shape with
  | nil =>
    cases shape with
    | nil => simp [valid_index]
    | cons e es => simp [valid_index]
  | cons c cs ih =>
    cases shape with
    | nil => simp [valid_index]
    | cons e es =>
      have h := ih es
      simp only [valid_index, List.length_cons, Nat.add_right_cancel_iff, List.zipWith_cons_cons,
        List.all_cons, id, Bool.and_eq_true, decide_eq_true_eq] at h ⊢
      constructor
      · rintro ⟨hl, hc, hrest⟩
        refine ⟨hl, ?_⟩
        intro i c' e' h1 h2
        cases i with
        | zero =>
          simp only [List.getElem?_cons_zero, Option.some.injEq] at h1 h2
          omega
        | succ j =>
          simp only [List.getElem?_cons_succ] at h1 h2
          exact (h.1 ⟨hl, hrest⟩).2 j c' e' h1 h2
      · rintro ⟨hl, hall⟩
        refine ⟨hl, hall 0 c e (by simp) (by simp), ?_⟩
        exact (h.2 ⟨hl, fun i c' e' h1 h2 => hall (i + 1) c' e' (by simpa using h1)
          (by simpa using h2)⟩).2

theorem mdarray.bounds_check_iff {T : Type} (a : mdarray T) (n : List Nat) :
    a.bounds_check n = true ↔ valid_index a.shape n :=
  bounds_check_iff_zip a.m_shape n

theorem valid_index_cons (e c : Nat) (es cs : List Nat) :
    valid_index (e :: es) (c :: cs) ↔ c < e ∧ valid_index es cs := by
  rw [← bounds_check_iff_zip, ← bounds_check_iff_zip]
  simp only [List.length_cons, Nat.add_right_cancel_iff, List.zipWith_cons_cons, List.all_cons,
    id, Bool.and_eq_true, decide_eq_true_eq]
  tauto

theorem offset_lt_prod (shape index : List Nat) (h : valid_index shape index) :
    (List.zipWith (fun c s => c * s) index (mdarray.strides shape)).sum < shape.prod := by
  induction index generalizing shape with
  | nil =>
    cases shape with
    | nil => simp [mdarray.strides]
    | cons e es => simp [valid_index] at h
  | cons c cs ih =>
    cases shape with
    | nil => simp [valid_index] at h
    | cons e es =>
      rw [valid_index_cons] at h
      have hrest := ih es h.2
      simp only [mdarray.strides, List.zipWith_cons_cons, List.sum_cons, List.prod_cons]
      have hstep : (c + 1) * es.prod ≤ e * es.prod := Nat.mul_le_mul_right _ h.1
      rw [Nat.add_mul, Nat.one_mul] at hstep
      omega

theorem mdarray.index_lt_size {T : Type} (a : mdarray T) (n : List Nat)
    (h : valid_index a.shape n) : a.index n < a.m_data.length := by
  rw [a.h_size]
  exact offset_lt_prod a.m_shape n h

theorem mdarray.at_of_valid {T : Type} (a : mdarray T) (n : List Nat)
    (h : valid_index a.shape n) :
    mdarray.at a n = .ok (a.m_data.get ⟨a.index n, a.index_lt_size n h⟩) := by
  have hlt := a.index_lt_size n h
  simp [mdarray.at, (a.bounds_check_iff n).2 h, List.getElem?_eq_getElem hlt]

theorem mdarray.at_of_invalid {T : Type} (a : mdarray T) (n : List Nat)
    (h : ¬ valid_index a.shape n) : mdarray.at a n = .error .out_of_range := by
  have hb : a.bounds_check n = false := by
    rw [← Bool.not_eq_true, a.bounds_check_iff n]
    exact h
  simp [mdarray.at, hb]

theorem mdarray.insert_of_invalid {T : Type} (a : mdarray T) (n : List Nat) (value : T)
    (h : ¬ valid_index a.shape n) : a.insert n value = (.error .out_of_range, a) := by
  have hb : a.bounds_check n = false := by
    rw [← Bool.not_eq_true, a.bounds_check_iff n]
    exact h
  simp [mdarray.insert, hb]

theorem mdarray.insert_of_valid {T : Type} (a : mdarray T) (n : List Nat) (value : T)
    (h : valid_index a.shape n) :
    (a.insert n value).1 = .ok () ∧ (a.insert n value).2.m_shape = a.m_shape ∧
      (a.insert n value).2.m_data = a.m_data.set (a.index n) value := by
  simp [mdarray.insert, (a.bounds_check_iff n).2 h]

theorem mdarray.at_insert_same {T : Type} (a : mdarray T) (n : List Nat) (value : T)
    (h : valid_index a.shape n) : mdarray.at (a.insert n value).2 n = .ok value := by
  obtain ⟨_, hshape, hdata⟩ := a.insert_of_valid n value h
  have hlt := a.index_lt_size n h
  have hb : (a.insert n value).2.bounds_check n = true := by
    rw [mdarray.bounds_check_iff, mdarray.shape, hshape]
    exact h
  have hidx : (a.insert n value).2.index n = a.index n := by
    simp [mdarray.index, hshape]
  simp [mdarray.at, hb, hidx, hdata, List.getElem?_set_self hlt]

theorem not_valid_index_of {shape index : List Nat}
    (h : index.length ≠ shape.length ∨
      ∃ (i c e : Nat), index[i]? = some c ∧ shape[i]? = some e ∧ e ≤ c) :
    ¬ valid_index shape index := by
  rintro ⟨hl, hall⟩
  rcases h with h | ⟨i, c, e, h1, h2, h3⟩
  · exact h hl
  · have := hall i c e h1 h2
    omega

/-! ## The variable -/

theorem Variable.make_eq {ι : Type} (V : ι → Type) [∀ t, Inhabited (V t)] (int_ T : ι)
    (name : String) (D : List dimension) :
    Variable.make V int_ T name D =
      { m_name := name, m_data := ⟨T, mdarray.ctor (D.map dimension.size)⟩, m_dimensions := D } := by
  simp [Variable.make, Variable.default_ctor, foldl_push_back]

/-- Claim C1: for every element type `T`, name and dimension list `D`, the
variable `make<T>(name, D)` has rank `D.length`, its shape is the list of the
lengths of the dimensions of `D` in order, and its size is the product of its
shape. -/
theorem Variable.make_rank_shape_size {ι : Type} (V : ι → Type) [∀ t, Inhabited (V t)]
    (int_ T : ι) (name : String) (D : List dimension) :
    (Variable.make V int_ T name D).rank = D.length ∧
      (Variable.make V int_ T name D).shape = D.map dimension.size ∧
      (Variable.make V int_ T name D).size = (Variable.make V int_ T name D).shape.prod := by
  rw [Variable.make_eq]
  simp [Variable.rank, Variable.shape, Variable.size, visitors.mdarray_rank,
    visitors.mdarray_shape, visitors.mdarray_size, mdarray.rank, mdarray.shape, mdarray.size,
    mdarray.ctor]

theorem Variable.insert_at_typed_same {ι : Type} [DecidableEq ι] {V : ι → Type}
    (cv : implicit_conversion ι V) (name : String) (T : ι) (a : mdarray (V T))
    (dims : List dimension) (index : List Nat) (value : V T)
    (h : valid_index a.shape index) :
    (Variable.insert cv ⟨name, ⟨T, a⟩, dims⟩ T index value).1 = .ok () ∧
      Variable.at_typed (Variable.insert cv ⟨name, ⟨T, a⟩, dims⟩ T index value).2 T index =
        .ok value := by
  constructor
  · simp [Variable.insert, visitors.mdarray_insert, (a.insert_of_valid index _ h).1]
  · simp [Variable.insert, visitors.mdarray_insert, Variable.at_typed, visitors.mdarray_at,
      cv.conv_self, mdarray.at_insert_same a index value h, boost_get_scalar]

/-- Claim C2: round trip. For every variable created by `make<T>`, every index
valid for its shape and every value of type `T`, `insert(index, value)`
succeeds and `at<T>(index)` then returns exactly that value. -/
theorem Variable.insert_at_round_trip {ι : Type} [DecidableEq ι] (V : ι → Type)
    [∀ t, Inhabited (V t)] (cv : implicit_conversion ι V) (int_ T : ι) (name : String)
    (D : List dimension) (index : List Nat) (value : V T)
    (h : valid_index (Variable.make V int_ T name D).shape index) :
    (Variable.insert cv (Variable.make V int_ T name D) T index value).1 = .ok () ∧
      Variable.at_typed (Variable.insert cv (Variable.make V int_ T name D) T index value).2
        T index = .ok value := by
  rw [Variable.make_eq] at h ⊢
  exact Variable.insert_at_typed_same cv name T _ D index value h

/-- Witness of claim C2: on `make<double>("precip", [time: 3])`, the index `[1]`
is valid, and inserting `2.0` there and reading it back gives `2.0`. -/
theorem Variable.insert_at_round_trip_witness :
    valid_index (Variable.make scalar.value scalar.int scalar.double "precip"
        [{ m_name := "time", m_size := 3 }]).shape [1] ∧
      (Variable.insert scalar.conversion
        (Variable.make scalar.value scalar.int scalar.double "precip"
          [{ m_name := "time", m_size := 3 }])
        scalar.double [1] ({ mantissa := 1, exponent := 1 } : double_value)).1 = .ok () ∧
      Variable.at_typed (Variable.insert scalar.conversion
        (Variable.make scalar.value scalar.int scalar.double "precip"
          [{ m_name := "time", m_size := 3 }])
        scalar.double [1] ({ mantissa := 1, exponent := 1 } : double_value)).2
        scalar.double [1] = .ok ({ mantissa := 1, exponent := 1 } : double_value) :=
  ⟨(bounds_check_iff_zip _ _).1 (by decide),
    Variable.insert_at_round_trip scalar.value scalar.conversion scalar.int scalar.double
      "precip" [{ m_name := "time", m_size := 3 }] [1] { mantissa := 1, exponent := 1 }
      ((bounds_check_iff_zip _ _).1 (by decide))⟩

/-- Claim C3: for every variable and every index whose arity differs from the
rank or that has a coordinate at or above the extent of its axis, `insert`
fails (for every value, of every type) and leaves the variable as it was, the
untyped `at` and every `at<T>` fail, and after the failed insert `at` returns
at every index what it returned before. -/
theorem Variable.invalid_index_fails {ι : Type} [DecidableEq ι] {V : ι → Type}
    (cv : implicit_conversion ι V) (v : Variable ι V) (index : List Nat)
    (h : index.length ≠ v.rank ∨
      ∃ (i c e : Nat), index[i]? = some c ∧ v.shape[i]? = some e ∧ e ≤ c) :
    (∀ (U : ι) (value : V U), Variable.insert cv v U index value = (.error .out_of_range, v)) ∧
      Variable.at v index = .error .out_of_range ∧
      (∀ (U : ι), Variable.at_typed v U index = .error .out_of_range) ∧
      (∀ (U : ι) (value : V U) (j : List Nat),
        Variable.at (Variable.insert cv v U index value).2 j = Variable.at v j) := by
  have hinv : ¬ valid_index v.m_data.2.shape index := not_valid_index_of h
  have hins : ∀ (U : ι) (value : V U),
      Variable.insert cv v U index value = (.error .out_of_range, v) := by
    intro U value
    simp [Variable.insert, visitors.mdarray_insert, mdarray.insert_of_invalid _ _ _ hinv]
  refine ⟨hins, ?_, ?_, ?_⟩
  · simp [Variable.at, visitors.mdarray_at, mdarray.at_of_invalid _ _ hinv]
  · intro U
    simp [Variable.at_typed, visitors.mdarray_at, mdarray.at_of_invalid _ _ hinv]
  · intro U value j
    rw [hins U value]

/-- Witness of claim C3: on `make<double>("x", [a: 2, b: 2])` holding `1.0` at
`[0,0]`, the index `[2,0]` has coordinate 2 on an axis of extent 2; inserting
`9.0` there fails and `at<double>([0,0])` still returns `1.0`. -/
theorem Variable.invalid_index_fails_witness :
    Variable.insert scalar.conversion
        (Variable.insert scalar.conversion
          (Variable.make scalar.value scalar.int scalar.double "x"
            [{ m_name := "a", m_size := 2 }, { m_name := "b", m_size := 2 }])
          scalar.double [0, 0] ({ mantissa := 1, exponent := 0 } : double_value)).2
        scalar.double [2, 0] ({ mantissa := 9, exponent := 0 } : double_value) =
      (.error .out_of_range,
        (Variable.insert scalar.conversion
          (Variable.make scalar.value scalar.int scalar.double "x"
            [{ m_name := "a", m_size := 2 }, { m_name := "b", m_size := 2 }])
          scalar.double [0, 0] ({ mantissa := 1, exponent := 0 } : double_value)).2) ∧
      Variable.at_typed
        (Variable.insert scalar.conversion
          (Variable.insert scalar.conversion
            (Variable.make scalar.value scalar.int scalar.double "x"
              [{ m_name := "a", m_size := 2 }, { m_name := "b", m_size := 2 }])
            scalar.double [0, 0] ({ mantissa := 1, exponent := 0 } : double_value)).2
          scalar.double [2, 0] ({ mantissa := 9, exponent := 0 } : double_value)).2
        scalar.double [0, 0] = .ok ({ mantissa := 1, exponent := 0 } : double_value) :=
  ⟨(Variable.invalid_index_fails scalar.conversion
      (Variable.insert scalar.conversion
        (Variable.make scalar.value scalar.int scalar.double "x"
          [{ m_name := "a", m_size := 2 }, { m_name := "b", m_size := 2 }])
        scalar.double [0, 0] ({ mantissa := 1, exponent := 0 } : double_value)).2
      [2, 0] (Or.inr ⟨0, 2, 2, rfl, rfl, Nat.le_refl 2⟩)).1 scalar.double
      { mantissa := 9, exponent := 0 },
    rfl⟩

/-- The typed accessor `values<U>()` on every variable: it returns the stored
array when `U` is the active element type (`T` after `make<T>`), and otherwise
the `boost::bad_get` of `boost::get` leaves the `noexcept` accessor, which ends
the program. -/
theorem Variable.values_typed_type_check {ι : Type} [DecidableEq ι] (V : ι → Type)
    [∀ t, Inhabited (V t)] (int_ T : ι) (name : String) (D : List dimension)
    (v : Variable ι V) (U : ι) :
    (Variable.make V int_ T name D).m_data.1 = T ∧
      Variable.values_typed (Variable.make V int_ T name D) T =
        .ok (mdarray.ctor (D.map dimension.size)) ∧
      (U ≠ v.m_data.1 → Variable.values_typed v U = .error (.terminate .bad_get)) ∧
      Variable.values_typed v v.m_data.1 = .ok v.m_data.2 := by
  refine ⟨by rw [Variable.make_eq], ?_, ?_, ?_⟩
  · rw [Variable.make_eq]
    simp [Variable.values_typed, boost_get_mdarray]
  · intro hne
    have hne' : ¬ v.m_data.1 = U := fun h => hne h.symm
    simp [Variable.values_typed, boost_get_mdarray, hne']
  · simp [Variable.values_typed, boost_get_mdarray]

/-- Claim C4, the code at the failing input: on `make<int>("count", [time: 2])`,
`values<double>()` does not fail with the type-mismatch condition
`boost::bad_get` that the sibling `at<double>` raises to its caller: the
accessor is `noexcept`, the exception cannot leave it and the program ends in
`std::terminate`. `values<int>()` returns the stored array. -/
theorem Variable.values_typed_terminates :
    Variable.values_typed (Variable.make scalar.value scalar.int scalar.int "count"
        [{ m_name := "time", m_size := 2 }]) scalar.double = .error (.terminate .bad_get) ∧
      Variable.values_typed (Variable.make scalar.value scalar.int scalar.int "count"
        [{ m_name := "time", m_size := 2 }]) scalar.double ≠ .error .bad_get ∧
      Variable.at_typed (Variable.make scalar.value scalar.int scalar.int "count"
        [{ m_name := "time", m_size := 2 }]) scalar.double [1] = .error .bad_get ∧
      Variable.values_typed (Variable.make scalar.value scalar.int scalar.int "count"
        [{ m_name := "time", m_size := 2 }]) scalar.int =
        .ok { m_shape := [2], m_data := [(0 : Int), 0], h_size := rfl } :=
  ⟨rfl, fun h => failure.noConfusion (Except.error.inj h), rfl, rfl⟩

/-- Claim C5: `make<T>` creates a variable whose active element type is `T`;
on every variable and every index valid for its shape, `at<U>(index)` fails
with `boost::bad_get` when `U` is not the active element type, and `at<T>(index)`
for the active element type `T` succeeds and returns the element that the
stored array holds at that index. -/
theorem Variable.at_typed_type_check {ι : Type} [DecidableEq ι] (V : ι → Type)
    [∀ t, Inhabited (V t)] (int_ T : ι) (name : String) (D : List dimension)
    (v : Variable ι V) (index : List Nat) (U : ι) (h : valid_index v.shape index) :
    (Variable.make V int_ T name D).m_data.1 = T ∧
      (U ≠ v.m_data.1 → Variable.at_typed v U index = .error .bad_get) ∧
      Variable.at_typed v v.m_data.1 index = mdarray.at v.m_data.2 index ∧
      mdarray.at v.m_data.2 index =
        .ok (v.m_data.2.m_data.get ⟨v.m_data.2.index index, v.m_data.2.index_lt_size index h⟩) := by
  have hat := mdarray.at_of_valid v.m_data.2 index h
  refine ⟨by rw [Variable.make_eq], ?_, ?_, hat⟩
  · intro hne
    have hne' : ¬ v.m_data.1 = U := fun h => hne h.symm
    simp [Variable.at_typed, visitors.mdarray_at, hat, boost_get_scalar, hne']
  · simp [Variable.at_typed, visitors.mdarray_at, hat, boost_get_scalar]

/-- Witness of claim C5: on `make<int>("count", [time: 2])` with 7 inserted at
`[1]`, `at<double>([1])` fails with the type mismatch and `at<int>([1])`
returns 7. -/
theorem Variable.at_typed_type_check_witness :
    Variable.at_typed (Variable.insert scalar.conversion
        (Variable.make scalar.value scalar.int scalar.int "count"
          [{ m_name := "time", m_size := 2 }]) scalar.int [1] (7 : Int)).2
        scalar.double [1] = .error .bad_get ∧
      Variable.at_typed (Variable.insert scalar.conversion
        (Variable.make scalar.value scalar.int scalar.int "count"
          [{ m_name := "time", m_size := 2 }]) scalar.int [1] (7 : Int)).2
        scalar.int [1] = .ok (7 : Int) :=
  ⟨(Variable.at_typed_type_check scalar.value scalar.int scalar.int "count"
      [{ m_name := "time", m_size := 2 }]
      (Variable.insert scalar.conversion
        (Variable.make scalar.value scalar.int scalar.int "count"
          [{ m_name := "time", m_size := 2 }]) scalar.int [1] (7 : Int)).2
      [1] scalar.double ((bounds_check_iff_zip _ _).1 (by decide))).2.1 (by decide),
    rfl⟩

/-! ## Equality and hashing -/

/-- Claim C6: two variables with equal names compare equal under `operator==`,
whatever their dimensions, element types and data are. -/
theorem Variable.eq_of_name_eq {ι : Type} {V : ι → Type} (std_hash : String → Nat)
    (a b : Variable ι V) (h : a.m_name = b.m_name) : Variable.eq std_hash a b = true := by
  simp [Variable.eq, Variable.hash, h]

/-- Witness of claim C6: an `int` variable over one dimension and a `double`
variable over another, both named "flow", compare equal. -/
theorem Variable.eq_of_name_eq_witness :
    Variable.eq String.length
      (Variable.make scalar.value scalar.int scalar.int "flow"
        [{ m_name := "time", m_size := 2 }])
      (Variable.make scalar.value scalar.int scalar.double "flow"
        [{ m_name := "x", m_size := 3 }, { m_name := "y", m_size := 1 }]) = true :=
  Variable.eq_of_name_eq String.length _ _ rfl

/-- Whatever function `std::hash<std::string>` is, it is not true that all
variables with different names compare unequal: the hash is a 64-bit
`std::size_t` and there are infinitely many names, so two different names have
the same hash, and variables with these names compare equal. -/
theorem Variable.eq_of_hash_collision :
    ¬ ∃ std_hash : String → Nat, ∀ a b : Variable scalar scalar.value,
      a.m_name ≠ b.m_name → Variable.eq std_hash a b = false := by
  rintro ⟨std_hash, hall⟩
  obtain ⟨x, y, hne, hxy⟩ := Finite.exists_ne_map_eq_of_infinite
    (fun s : String => (⟨std_hash s % 2 ^ 64, Nat.mod_lt _ (by norm_num)⟩ : Fin (2 ^ 64)))
  have hval : std_hash x % 2 ^ 64 = std_hash y % 2 ^ 64 := congrArg Fin.val hxy
  have hfalse := hall (Variable.make scalar.value scalar.int scalar.int x [])
    (Variable.make scalar.value scalar.int scalar.int y []) (by simpa [Variable.make_eq] using hne)
  have hdiff : ¬ std_hash x % 2 ^ 64 = std_hash y % 2 ^ 64 := by
    simpa [Variable.eq, Variable.hash, Variable.make_eq] using hfalse
  exact hdiff hval

/-- Claim C7, the code at the failing input: the names "runoffAAW4eaaaaa" and
"runoffBBTleibkJi" are different, the `std::hash<std::string>` of libstdc++
gives both the hash 9032022828792267347, and `operator==` returns true on two
variables with these names (and the same dimensions and data). -/
theorem Variable.eq_of_colliding_names :
    "runoffAAW4eaaaaa" ≠ "runoffBBTleibkJi" ∧
      libstdcxx_hash "runoffAAW4eaaaaa" = 9032022828792267347 ∧
      libstdcxx_hash "runoffBBTleibkJi" = 9032022828792267347 ∧
      Variable.eq libstdcxx_hash
        (Variable.make scalar.value scalar.int scalar.int "runoffAAW4eaaaaa"
          [{ m_name := "time", m_size := 2 }])
        (Variable.make scalar.value scalar.int scalar.int "runoffBBTleibkJi"
          [{ m_name := "time", m_size := 2 }]) = true := by
  refine ⟨by decide, by decide, by decide, by decide⟩

/-! ## Replacing the array, inserting a value of another type, default construction -/

/-- Counterexample to claim C8: on `make<int>("x", [a: 2])`, `set_data` with an
`mdarray<double>` raises no type-mismatch condition (neither `boost::bad_get`
nor the end of the program that a `bad_get` in a `noexcept` function brings),
and it does not leave the variable unchanged: the assignment of its body has
made `double` the active element type. -/
theorem Variable.set_data_changes_type :
    (Variable.make scalar.value scalar.int scalar.int "x"
        [{ m_name := "a", m_size := 2 }]).m_data.1 = scalar.int ∧
      (Variable.set_data (Variable.make scalar.value scalar.int scalar.int "x"
        [{ m_name := "a", m_size := 2 }]) scalar.double (mdarray.ctor [2])).1 ≠
        .error .bad_get ∧
      (Variable.set_data (Variable.make scalar.value scalar.int scalar.int "x"
        [{ m_name := "a", m_size := 2 }]) scalar.double (mdarray.ctor [2])).1 ≠
        .error (.terminate .bad_get) ∧
      (Variable.set_data (Variable.make scalar.value scalar.int scalar.int "x"
        [{ m_name := "a", m_size := 2 }]) scalar.double (mdarray.ctor [2])).2.m_data.1 =
        scalar.double :=
  ⟨rfl, fun h => failure.noConfusion (Except.error.inj h),
    fun h => failure.noConfusion (Except.error.inj h), rfl⟩

/-- Claim C8, amended: for a variable created by `make<T>` and an array of
another element type `U`, `set_data` makes no type check and raises no
type-mismatch condition: the assignment of its body stores the given array in
the container, so that the active element type becomes `U`, not `T`, and the
shape the array's, and the name and the dimensions are not touched. -/
theorem Variable.set_data_other_type {ι : Type} [DecidableEq ι] (V : ι → Type)
    [∀ t, Inhabited (V t)] (int_ T U : ι) (name : String) (D : List dimension)
    (data : mdarray (V U)) (h : U ≠ T) :
    (Variable.set_data (Variable.make V int_ T name D) U data).1 ≠ .error .bad_get ∧
      (Variable.set_data (Variable.make V int_ T name D) U data).1 ≠
        .error (.terminate .bad_get) ∧
      (Variable.set_data (Variable.make V int_ T name D) U data).2.values = ⟨U, data⟩ ∧
      (Variable.set_data (Variable.make V int_ T name D) U data).2.m_data.1 ≠ T ∧
      (Variable.set_data (Variable.make V int_ T name D) U data).2.shape = data.shape ∧
      (Variable.set_data (Variable.make V int_ T name D) U data).2.name =
        (Variable.make V int_ T name D).name ∧
      (Variable.set_data (Variable.make V int_ T name D) U data).2.dimensions =
        (Variable.make V int_ T name D).dimensions :=
  ⟨fun e => failure.noConfusion (Except.error.inj e),
    fun e => failure.noConfusion (Except.error.inj e), rfl, h, rfl, rfl, rfl⟩

/-- Witness of claim C8, amended: `set_data` with an `mdarray<double>` of shape
`[3]` on `make<int>("x", [a: 2])`. -/
theorem Variable.set_data_other_type_witness :
    scalar.double ≠ scalar.int ∧
      (Variable.set_data (Variable.make scalar.value scalar.int scalar.int "x"
        [{ m_name := "a", m_size := 2 }]) scalar.double (mdarray.ctor [3])).2.shape = [3] ∧
      (Variable.set_data (Variable.make scalar.value scalar.int scalar.int "x"
        [{ m_name := "a", m_size := 2 }]) scalar.double (mdarray.ctor [3])).2.dimensions =
        ["a"] :=
  ⟨by decide,
    (Variable.set_data_other_type scalar.value scalar.int scalar.int scalar.double "x"
      [{ m_name := "a", m_size := 2 }] (mdarray.ctor [3]) (by decide)).2.2.2.2.1,
    rfl⟩

theorem Variable.insert_converts {ι : Type} [DecidableEq ι] {V : ι → Type}
    (cv : implicit_conversion ι V) (name : String) (T U : ι) (a : mdarray (V T))
    (dims : List dimension) (index : List Nat) (value : V U)
    (h : valid_index a.shape index) :
    (Variable.insert cv ⟨name, ⟨T, a⟩, dims⟩ U index value).1 = .ok () ∧
      Variable.at_typed (Variable.insert cv ⟨name, ⟨T, a⟩, dims⟩ U index value).2 T index =
        .ok (cv.conv U T value) := by
  constructor
  · simp [Variable.insert, visitors.mdarray_insert, (a.insert_of_valid index _ h).1]
  · simp [Variable.insert, visitors.mdarray_insert, Variable.at_typed, visitors.mdarray_at,
      mdarray.at_insert_same a index _ h, boost_get_scalar]

/-- Claim C9, the code at the failing input: on `make<int>("x", [a: 1])`,
`insert<double>({0}, 2.5)` does not fail; the value is converted to `int` and
written, and `at<int>({0})` then returns 2 where it returned 0 before. -/
theorem Variable.insert_coerces_value :
    Variable.at_typed (Variable.make scalar.value scalar.int scalar.int "x"
        [{ m_name := "a", m_size := 1 }]) scalar.int [0] = .ok (0 : Int) ∧
      (Variable.insert scalar.conversion
        (Variable.make scalar.value scalar.int scalar.int "x" [{ m_name := "a", m_size := 1 }])
        scalar.double [0] ({ mantissa := 5, exponent := -1 } : double_value)).1 = .ok () ∧
      Variable.at_typed (Variable.insert scalar.conversion
        (Variable.make scalar.value scalar.int scalar.int "x" [{ m_name := "a", m_size := 1 }])
        scalar.double [0] ({ mantissa := 5, exponent := -1 } : double_value)).2
        scalar.int [0] = .ok (2 : Int) :=
  ⟨rfl, rfl, rfl⟩

/-- Counterexample to claim C10: in the instantiation `variable<double, int>`,
whose first supported type is `double`, the default-constructed variable holds
an array of `int`. -/
theorem Variable.default_ctor_not_first_type :
    ([scalar.double, scalar.int] : List scalar).head? ≠
      some (Variable.default_ctor scalar.value scalar.int).m_data.1 := by
  decide

/-- Claim C10, amended: in every instantiation, a default-constructed variable
holds an array whose element type is `int` (the first supported type exactly
when `int` is listed first), and it has an empty name and no dimensions. -/
theorem Variable.default_ctor_holds_int {ι : Type} (V : ι → Type) [∀ t, Inhabited (V t)]
    (int_ : ι) (supported : List ι) :
    (Variable.default_ctor V int_).m_data.1 = int_ ∧
      (supported.head? = some (Variable.default_ctor V int_).m_data.1 ↔
        supported.head? = some int_) ∧
      (Variable.default_ctor V int_).name = "" ∧
      (Variable.default_ctor V int_).dimensions = [] := by
  refine ⟨rfl, Iff.rfl, rfl, rfl⟩

/-! ## Untyped access, accessors, frame of `insert` -/

theorem offset_injective (shape i j : List Nat) (hi : valid_index shape i)
    (hj : valid_index shape j)
    (h : (List.zipWith (fun c s => c * s) i (mdarray.strides shape)).sum =
      (List.zipWith (fun c s => c * s) j (mdarray.strides shape)).sum) : i = j := by
  induction i generalizing shape j with
  | nil =>
    have hs : shape = [] := List.eq_nil_of_length_eq_zero hi.1.symm
    subst hs
    exact (List.eq_nil_of_length_eq_zero hj.1).symm
  | cons c cs ih =>
    cases shape with
    | nil => simp [valid_index] at hi
    | cons e es =>
      cases j with
      | nil => simp [valid_index] at hj
      | cons d ds =>
        rw [valid_index_cons] at hi hj
        have h1 := offset_lt_prod es cs hi.2
        have h2 := offset_lt_prod es ds hj.2
        simp only [mdarray.strides, List.zipWith_cons_cons, List.sum_cons] at h
        have hcd : c = d := by
          rcases Nat.lt_trichotomy c d with hlt | heq | hgt
          · have hstep : (c + 1) * es.prod ≤ d * es.prod := Nat.mul_le_mul_right _ hlt
            rw [Nat.add_mul, Nat.one_mul] at hstep
            omega
          · exact heq
          · have hstep : (d + 1) * es.prod ≤ c * es.prod := Nat.mul_le_mul_right _ hgt
            rw [Nat.add_mul, Nat.one_mul] at hstep
            omega
        subst hcd
        have hrest : cs = ds := ih es ds hi.2 hj.2 (by omega)
        rw [hrest]

theorem mdarray.at_insert_other {T : Type} (a : mdarray T) (n j : List Nat) (value : T)
    (h : valid_index a.shape n) (hne : j ≠ n) :
    mdarray.at (a.insert n value).2 j = mdarray.at a j := by
  obtain ⟨_, hshape, hdata⟩ := a.insert_of_valid n value h
  have hb : (a.insert n value).2.bounds_check j = a.bounds_check j := by
    simp [mdarray.bounds_check, mdarray.rank, hshape]
  have hidx : (a.insert n value).2.index j = a.index j := by
    simp [mdarray.index, hshape]
  by_cases hj : valid_index a.shape j
  · have hoff : a.index n ≠ a.index j := fun heq =>
      hne (offset_injective a.m_shape j n hj h heq.symm)
    simp [mdarray.at, hb, hidx, hdata, List.getElem?_set_ne hoff]
  · have hbf : a.bounds_check j = false := by
      rw [← Bool.not_eq_true, a.bounds_check_iff j]
      exact hj
    simp [mdarray.at, hb, hbf]

/-- Claim C11: `make<T>` creates a variable whose active element type is `T`;
on every variable and every index valid for its shape, the untyped `at(index)`
succeeds and returns a tagged scalar whose tag is the active element type and
whose payload is what `at<T>(index)` returns for that type; and when the
untyped `at` fails, at any index, the failure is the bounds/arity failure and
the index is not valid. -/
theorem Variable.at_untyped_tagged {ι : Type} [DecidableEq ι] (V : ι → Type)
    [∀ t, Inhabited (V t)] (int_ T : ι) (name : String) (D : List dimension)
    (v : Variable ι V) (index : List Nat) :
    (Variable.make V int_ T name D).m_data.1 = T ∧
      (valid_index v.shape index →
        ∃ x : V v.m_data.1, Variable.at v index = .ok ⟨v.m_data.1, x⟩ ∧
          Variable.at_typed v v.m_data.1 index = .ok x) ∧
      (∀ e : failure, Variable.at v index = .error e →
        e = .out_of_range ∧ ¬ valid_index v.shape index) := by
  refine ⟨by rw [Variable.make_eq], ?_, ?_⟩
  · intro h
    have hat := mdarray.at_of_valid v.m_data.2 index h
    refine ⟨v.m_data.2.m_data.get ⟨v.m_data.2.index index, v.m_data.2.index_lt_size index h⟩,
      ?_, ?_⟩
    · simp only [Variable.at, visitors.mdarray_at, hat]
    · simp [Variable.at_typed, visitors.mdarray_at, hat, boost_get_scalar]
  · intro e he
    by_cases h : valid_index v.shape index
    · have hat := mdarray.at_of_valid v.m_data.2 index h
      simp [Variable.at, visitors.mdarray_at, hat] at he
    · have hat := mdarray.at_of_invalid v.m_data.2 index h
      simp only [Variable.at, visitors.mdarray_at, hat, Except.error.injEq] at he
      exact ⟨he.symm, h⟩

/-- Witness of claim C11: on `make<double>("precip", [time: 3])` with `2.0`
inserted at `[1]`, the untyped `at([1])` returns the scalar tagged `double`
with payload `2.0`. -/
theorem Variable.at_untyped_tagged_witness :
    ∃ x : double_value,
      Variable.at (Variable.insert scalar.conversion
        (Variable.make scalar.value scalar.int scalar.double "precip"
          [{ m_name := "time", m_size := 3 }])
        scalar.double [1] ({ mantissa := 1, exponent := 1 } : double_value)).2 [1] =
        .ok ⟨scalar.double, x⟩ ∧
      Variable.at_typed (Variable.insert scalar.conversion
        (Variable.make scalar.value scalar.int scalar.double "precip"
          [{ m_name := "time", m_size := 3 }])
        scalar.double [1] ({ mantissa := 1, exponent := 1 } : double_value)).2
        scalar.double [1] = .ok x :=
  (Variable.at_untyped_tagged scalar.value scalar.int scalar.double "precip"
    [{ m_name := "time", m_size := 3 }]
    (Variable.insert scalar.conversion
      (Variable.make scalar.value scalar.int scalar.double "precip"
        [{ m_name := "time", m_size := 3 }])
      scalar.double [1] ({ mantissa := 1, exponent := 1 } : double_value)).2
    [1]).2.1 ((bounds_check_iff_zip _ _).1 (by decide))

/-- Claim C12: for every name, dimension list `D` and element type `T`, the
variable `make<T>(name, D)` has the given name, and `dimensions()` is the list
of the names of the dimensions of `D`, in the same order and of the same
length. -/
theorem Variable.make_name_dimensions {ι : Type} (V : ι → Type) [∀ t, Inhabited (V t)]
    (int_ T : ι) (name : String) (D : List dimension) :
    (Variable.make V int_ T name D).name = name ∧
      (Variable.make V int_ T name D).dimensions = D.map dimension.name ∧
      (Variable.make V int_ T name D).dimensions.length = D.length := by
  rw [Variable.make_eq]
  simp [Variable.name, Variable.dimensions, foldl_push_back]

theorem visitors.mdarray_at_congr {ι : Type} {V : ι → Type} {t : ι} (a b : mdarray (V t))
    (j : List Nat) (h : mdarray.at a j = mdarray.at b j) :
    visitors.mdarray_at (⟨t, a⟩ : mdarray_variant V) j = visitors.mdarray_at ⟨t, b⟩ j := by
  cases hb : mdarray.at b j <;> simp [visitors.mdarray_at, h, hb]

theorem Variable.insert_frame_general {ι : Type} [DecidableEq ι] {V : ι → Type}
    (cv : implicit_conversion ι V) (v : Variable ι V) (U : ι) (index : List Nat) (value : V U)
    (h : valid_index v.shape index) :
    (Variable.insert cv v U index value).1 = .ok () ∧
      (Variable.insert cv v U index value).2.m_data.1 = v.m_data.1 ∧
      (Variable.insert cv v U index value).2.m_data.2.m_shape = v.m_data.2.m_shape ∧
      (Variable.insert cv v U index value).2.m_name = v.m_name ∧
      (Variable.insert cv v U index value).2.m_dimensions = v.m_dimensions := by
  obtain ⟨hok, hshape, _⟩ := v.m_data.2.insert_of_valid index (cv.conv U v.m_data.1 value) h
  exact ⟨by simp [Variable.insert, visitors.mdarray_insert, hok],
    rfl, by simp [Variable.insert, visitors.mdarray_insert, hshape], rfl, rfl⟩

/-- Claim C14: frame of `insert`. For every variable, every index valid for
its shape and every value, `insert(index, value)` succeeds, and afterwards
`at<T>(j)` and the untyped `at(j)` return at every index `j` other than
`index` what they returned before, and `name()`, `dimensions()`, `rank()`,
`shape()` and `size()` are unchanged. -/
theorem Variable.insert_frame {ι : Type} [DecidableEq ι] {V : ι → Type}
    (cv : implicit_conversion ι V) (v : Variable ι V) (U : ι) (index : List Nat) (value : V U)
    (h : valid_index v.shape index) :
    (Variable.insert cv v U index value).1 = .ok () ∧
      (∀ (j : List Nat), j ≠ index → ∀ (T : ι),
        Variable.at_typed (Variable.insert cv v U index value).2 T j = Variable.at_typed v T j) ∧
      (∀ (j : List Nat), j ≠ index →
        Variable.at (Variable.insert cv v U index value).2 j = Variable.at v j) ∧
      (Variable.insert cv v U index value).2.name = v.name ∧
      (Variable.insert cv v U index value).2.dimensions = v.dimensions ∧
      (Variable.insert cv v U index value).2.rank = v.rank ∧
      (Variable.insert cv v U index value).2.shape = v.shape ∧
      (Variable.insert cv v U index value).2.size = v.size := by
  obtain ⟨hok, hshape, hdata⟩ :=
    v.m_data.2.insert_of_valid index (cv.conv U v.m_data.1 value) h
  have hvis : ∀ (j : List Nat), j ≠ index →
      visitors.mdarray_at (Variable.insert cv v U index value).2.m_data j =
        visitors.mdarray_at v.m_data j := by
    intro j hj
    exact visitors.mdarray_at_congr _ _ j
      (mdarray.at_insert_other v.m_data.2 index j (cv.conv U v.m_data.1 value) h hj)
  refine ⟨by simp [Variable.insert, visitors.mdarray_insert, hok], ?_, ?_, rfl, rfl, ?_, ?_, ?_⟩
  · intro j hj T
    simp only [Variable.at_typed, hvis j hj]
  · intro j hj
    simp only [Variable.at, hvis j hj]
  · simp [Variable.rank, visitors.mdarray_rank, mdarray.rank, Variable.insert,
      visitors.mdarray_insert, hshape]
  · simp [Variable.shape, visitors.mdarray_shape, mdarray.shape, Variable.insert,
      visitors.mdarray_insert, hshape]
  · simp [Variable.size, visitors.mdarray_size, mdarray.size, Variable.insert,
      visitors.mdarray_insert, hdata]

/-- Witness of claim C14: on `make<double>("precip", [time: 3])`, after
`insert({0}, 1.5)`, `insert({1}, 2.0)` and `insert({2}, 0.25)`, `at<double>({1})`
is `2.0`, the size is 3, the rank 1 and the shape `[3]`. -/
theorem Variable.insert_frame_witness :
    Variable.at_typed (Variable.insert scalar.conversion precip_filled scalar.double [2]
        ({ mantissa := 1, exponent := -2 } : double_value)).2 scalar.double [1] =
        .ok ({ mantissa := 1, exponent := 1 } : double_value) ∧
      (Variable.insert scalar.conversion precip_filled scalar.double [2]
        ({ mantissa := 1, exponent := -2 } : double_value)).2.size = 3 ∧
      (Variable.insert scalar.conversion precip_filled scalar.double [2]
        ({ mantissa := 1, exponent := -2 } : double_value)).2.rank = 1 ∧
      (Variable.insert scalar.conversion precip_filled scalar.double [2]
        ({ mantissa := 1, exponent := -2 } : double_value)).2.shape = [3] :=
  ⟨((Variable.insert_frame scalar.conversion precip_filled scalar.double [2]
      ({ mantissa := 1, exponent := -2 } : double_value)
      ((bounds_check_iff_zip _ _).1 (by decide))).2.1 [1] (by decide) scalar.double).trans rfl,
    rfl, rfl, rfl⟩

/-- Claim C15, the code at the failing input: on `make<int>("x", [a: 2])`,
`set_data` with an `mdarray<int>` of shape `[2]`, the element type the
variable was made with, does not complete: after the assignment the body ends
without the `return` of the `variable&` it is declared to return, which is
undefined behaviour, for this as for every variable and array. -/
theorem Variable.set_data_no_return :
    (Variable.set_data (Variable.make scalar.value scalar.int scalar.int "x"
        [{ m_name := "a", m_size := 2 }]) scalar.int (mdarray.ctor [2])).1 =
        .error .undefined_behaviour ∧
      (Variable.set_data (Variable.make scalar.value scalar.int scalar.int "x"
        [{ m_name := "a", m_size := 2 }]) scalar.int (mdarray.ctor [2])).1 ≠ .ok () ∧
      (∀ (v : Variable scalar scalar.value) (U : scalar) (data : mdarray (scalar.value U)),
        (Variable.set_data v U data).1 = .error .undefined_behaviour) :=
  ⟨rfl, fun h => Except.noConfusion h, fun _ _ _ => rfl⟩

/-- Counterexample to claim C16: on `make<int>("x", [a: 2])`, the assignment
of `set_data` with an `mdarray<int>` of shape `[3, 4]`, which checks no shape,
leaves a variable of rank 2 and shape `[3, 4]` that still has the single
dimension `a` of length 2. -/
theorem Variable.set_data_breaks_shape :
    (Variable.run scalar.conversion
        (Variable.make scalar.value scalar.int scalar.int "x" [{ m_name := "a", m_size := 2 }])
        [.set_data scalar.int (mdarray.ctor [3, 4])]).rank = 2 ∧
      (Variable.run scalar.conversion
        (Variable.make scalar.value scalar.int scalar.int "x" [{ m_name := "a", m_size := 2 }])
        [.set_data scalar.int (mdarray.ctor [3, 4])]).dimensions.length = 1 ∧
      (Variable.run scalar.conversion
        (Variable.make scalar.value scalar.int scalar.int "x" [{ m_name := "a", m_size := 2 }])
        [.set_data scalar.int (mdarray.ctor [3, 4])]).shape = [3, 4] ∧
      (Variable.run scalar.conversion
        (Variable.make scalar.value scalar.int scalar.int "x" [{ m_name := "a", m_size := 2 }])
        [.set_data scalar.int (mdarray.ctor [3, 4])]).m_dimensions.map dimension.size = [2] :=
  ⟨rfl, rfl, rfl, rfl⟩

theorem Variable.insert_keeps_shape {ι : Type} [DecidableEq ι] {V : ι → Type}
    (cv : implicit_conversion ι V) (v : Variable ι V) (U : ι) (index : List Nat) (value : V U) :
    (Variable.insert cv v U index value).2.m_data.2.m_shape = v.m_data.2.m_shape ∧
      (Variable.insert cv v U index value).2.m_dimensions = v.m_dimensions := by
  by_cases h : valid_index v.shape index
  · obtain ⟨_, _, hshape, _, hdims⟩ := Variable.insert_frame_general cv v U index value h
    exact ⟨hshape, hdims⟩
  · have hins : Variable.insert cv v U index value = (.error .out_of_range, v) := by
      simp [Variable.insert, visitors.mdarray_insert, mdarray.insert_of_invalid _ _ _ h]
    rw [hins]
    exact ⟨rfl, rfl⟩

theorem Variable.run_keeps_shape_general {ι : Type} [DecidableEq ι] {V : ι → Type}
    (cv : implicit_conversion ι V) (D : List dimension) (calls : List (mutation ι V))
    (v : Variable ι V)
    (hv : v.m_dimensions = D ∧ v.m_data.2.m_shape = D.map dimension.size)
    (h : ∀ (U : ι) (data : mdarray (V U)),
      mutation.set_data U data ∈ calls → data.shape = D.map dimension.size) :
    (Variable.run cv v calls).m_dimensions = D ∧
      (Variable.run cv v calls).m_data.2.m_shape = D.map dimension.size := by
  induction calls generalizing v with
  | nil => exact hv
  | cons call rest ih =>
    have hrest : ∀ (U : ι) (data : mdarray (V U)),
        mutation.set_data U data ∈ rest → data.shape = D.map dimension.size :=
      fun U data hm => h U data (List.mem_cons_of_mem _ hm)
    have hstep : (Variable.apply cv v call).m_dimensions = D ∧
        (Variable.apply cv v call).m_data.2.m_shape = D.map dimension.size := by
      cases call with
      | insert U index value =>
        obtain ⟨hs, hd⟩ := Variable.insert_keeps_shape cv v U index value
        exact ⟨hd.trans hv.1, hs.trans hv.2⟩
      | set_data U data =>
        exact ⟨hv.1, h U data (List.mem_cons_self _ _)⟩
    exact ih (Variable.apply cv v call) hstep hrest

/-- Claim C16, amended: for every variable obtained from `make<T>(name, D)` by a
finite sequence of `insert` calls, whether they succeed or fail, the
dimensions are still `D`, `rank()` is the number of entries of `dimensions()`
and `shape()` is the ordered list of the lengths of the dimensions. -/
theorem Variable.run_keeps_shape {ι : Type} [DecidableEq ι] (V : ι → Type)
    [∀ t, Inhabited (V t)] (cv : implicit_conversion ι V) (int_ T : ι) (name : String)
    (D : List dimension) (calls : List (mutation ι V))
    (h : ∀ call ∈ calls, ∃ (U : ι) (index : List Nat) (value : V U),
      call = mutation.insert U index value) :
    (Variable.run cv (Variable.make V int_ T name D) calls).m_dimensions = D ∧
      (Variable.run cv (Variable.make V int_ T name D) calls).rank =
        (Variable.run cv (Variable.make V int_ T name D) calls).dimensions.length ∧
      (Variable.run cv (Variable.make V int_ T name D) calls).shape =
        (Variable.run cv (Variable.make V int_ T name D) calls).m_dimensions.map
          dimension.size := by
  have hno : ∀ (U : ι) (data : mdarray (V U)),
      mutation.set_data U data ∈ calls → data.shape = D.map dimension.size := by
    intro U data hm
    obtain ⟨U', index, value, heq⟩ := h _ hm
    exact mutation.noConfusion heq
  obtain ⟨hd, hs⟩ := Variable.run_keeps_shape_general cv D calls
    (Variable.make V int_ T name D) (by rw [Variable.make_eq]; exact ⟨rfl, rfl⟩) hno
  refine ⟨hd, ?_, ?_⟩
  · simp [Variable.rank, visitors.mdarray_rank, mdarray.rank, Variable.dimensions,
      foldl_push_back, hs, hd]
  · simp [Variable.shape, visitors.mdarray_shape, mdarray.shape, hs, hd]

/-- Witness of claim C16, amended: on `precip`, an `insert` at `[0]`, a failing
`insert` at `[5]` and an `insert` of an `int` at `[2]` leave rank 1 and shape
`[3]`, the length of the dimension `time`. -/
theorem Variable.run_keeps_shape_witness :
    (Variable.run scalar.conversion
        (Variable.make scalar.value scalar.int scalar.double "precip"
          [{ m_name := "time", m_size := 3 }])
        [.insert scalar.double [0] ({ mantissa := 3, exponent := -1 } : double_value),
          .insert scalar.double [5] ({ mantissa := 1, exponent := 0 } : double_value),
          .insert scalar.int [2] (7 : Int)]).rank = 1 ∧
      (Variable.run scalar.conversion
        (Variable.make scalar.value scalar.int scalar.double "precip"
          [{ m_name := "time", m_size := 3 }])
        [.insert scalar.double [0] ({ mantissa := 3, exponent := -1 } : double_value),
          .insert scalar.double [5] ({ mantissa := 1, exponent := 0 } : double_value),
          .insert scalar.int [2] (7 : Int)]).shape = [3] :=
  ⟨((Variable.run_keeps_shape scalar.value scalar.conversion scalar.int scalar.double "precip"
      [{ m_name := "time", m_size := 3 }]
      [.insert scalar.double [0] ({ mantissa := 3, exponent := -1 } : double_value),
        .insert scalar.double [5] ({ mantissa := 1, exponent := 0 } : double_value),
        .insert scalar.int [2] (7 : Int)]
      (by
        intro call hm
        simp only [List.mem_cons, List.mem_singleton, List.not_mem_nil, or_false] at hm
        rcases hm with hm | hm | hm
        · exact ⟨_, _, _, hm⟩
        · exact ⟨_, _, _, hm⟩
        · exact ⟨_, _, _, hm⟩)).2.1).trans rfl,
    rfl⟩

/-- Claim C17: `operator==` is reflexive, symmetric and transitive, and two
variables compare equal exactly when `variable::hash` gives them the same hash;
so variables that compare equal hash equally. -/
theorem Variable.eq_equivalence {ι : Type} {V : ι → Type} (std_hash : String → Nat) :
    (∀ a : Variable ι V, Variable.eq std_hash a a = true) ∧
      (∀ a b : Variable ι V, Variable.eq std_hash a b = true → Variable.eq std_hash b a = true) ∧
      (∀ a b c : Variable ι V, Variable.eq std_hash a b = true →
        Variable.eq std_hash b c = true → Variable.eq std_hash a c = true) ∧
      (∀ a b : Variable ι V,
        Variable.eq std_hash a b = true ↔ Variable.hash std_hash a = Variable.hash std_hash b) := by
  refine ⟨?_, ?_, ?_, ?_⟩
  · intro a
    simp [Variable.eq]
  · intro a b hab
    simp only [Variable.eq, beq_iff_eq] at hab ⊢
    exact hab.symm
  · intro a b c hab hbc
    simp only [Variable.eq, beq_iff_eq] at hab hbc ⊢
    exact hab.trans hbc
  · intro a b
    simp [Variable.eq]

end mdframe

namespace hymod

/-- Claim C18: water balance of one step with an empty Nash cascade, in exact
arithmetic. When `params.n` is 0, `run` returns, and its outputs satisfy `new_state.storage + fluxes.runnoff + fluxes.slow_flow_in +
fluxes.et_loss = state.storage + input_flux`. -/
theorem run_water_balance {K : Type} [Field K] (ar : arithmetic K) (lr : linear_reservoir K)
    (params : hymod_params K) (state : hymod_state K) (ks_fluxes : hymod_fluxes K)
    (new_state : hymod_state K) (input_flux : K) (hn : params.n = 0) :
    ∃ out : hymod_state K × hymod_fluxes K,
      hymod_kernel.run ar lr params state ks_fluxes new_state input_flux = some out ∧
      out.1.storage + out.2.runnoff + out.2.slow_flow_in + out.2.et_loss =
        state.storage + input_flux := by
  simp only [hymod_kernel.run, hn, ar.to_size_zero, Nat.zero_le, and_self, if_true]
  refine ⟨_, rfl, ?_⟩
  simp only [List.take_zero, List.map_nil, hymod_kernel.route, hymod_kernel.calc_et]
  ring

/-- Claim C19: whenever `run` returns (it does when the cascade is not longer
than `state.Sr` and `new_state.Sr`), the recorded `slow_flow_out` is
`ks_fluxes.slow_flow_in`, whatever the parameters, the state and the input flux
are, and the recorded `et_loss` is 0. -/
theorem run_slow_flow_out_et_loss {K : Type} [Field K] (ar : arithmetic K)
    (lr : linear_reservoir K) (params : hymod_params K) (state : hymod_state K)
    (ks_fluxes : hymod_fluxes K) (new_state : hymod_state K) (input_flux : K) :
    (ar.to_size params.n ≤ state.Sr.length ∧ ar.to_size params.n ≤ new_state.Sr.length →
        ∃ out, hymod_kernel.run ar lr params state ks_fluxes new_state input_flux = some out) ∧
      (∀ out : hymod_state K × hymod_fluxes K,
        hymod_kernel.run ar lr params state ks_fluxes new_state input_flux = some out →
          out.2.slow_flow_out = ks_fluxes.slow_flow_in ∧ out.2.et_loss = 0) := by
  constructor
  · intro h
    simp only [hymod_kernel.run, h, and_self, if_true]
    exact ⟨_, rfl⟩
  · intro out hout
    by_cases h : ar.to_size params.n ≤ state.Sr.length ∧
        ar.to_size params.n ≤ new_state.Sr.length
    · simp only [hymod_kernel.run, h, and_self, if_true, Option.some.injEq] at hout
      subst hout
      exact ⟨rfl, rfl⟩
    · simp only [hymod_kernel.run, h, if_false] at hout
      exact absurd hout (by simp)

/-- Witness of claim C18: on rationals, with `n = 0`, a storage of 10 and an
input flux of 5, `run` returns and the outputs add up to 15. -/
theorem run_water_balance_witness :
    ({ max_storage := 100, a := 1 / 2, b := 2, Ks := 0, Kq := 0, n := 0 } :
        hymod_params ℚ).n = 0 ∧
      ∃ out : hymod_state ℚ × hymod_fluxes ℚ,
        hymod_kernel.run rat_arithmetic rat_reservoir
          { max_storage := 100, a := 1 / 2, b := 2, Ks := 0, Kq := 0, n := 0 }
          { storage := 10, Sr := [] }
          { slow_flow_in := 1, slow_flow_out := 0, runnoff := 0, et_loss := 0 }
          { storage := 0, Sr := [] } 5 = some out ∧
        out.1.storage + out.2.runnoff + out.2.slow_flow_in + out.2.et_loss = 10 + 5 :=
  ⟨rfl,
    run_water_balance rat_arithmetic rat_reservoir
      { max_storage := 100, a := 1 / 2, b := 2, Ks := 0, Kq := 0, n := 0 }
      { storage := 10, Sr := [] }
      { slow_flow_in := 1, slow_flow_out := 0, runnoff := 0, et_loss := 0 }
      { storage := 0, Sr := [] } 5 rfl⟩

/-- Witness of claim C19: on rationals, with a cascade of one reservoir and
`ks_fluxes.slow_flow_in = 7`, `run` returns. -/
theorem run_slow_flow_out_et_loss_witness :
    ∃ out : hymod_state ℚ × hymod_fluxes ℚ,
      hymod_kernel.run rat_arithmetic rat_reservoir
        { max_storage := 100, a := 1 / 2, b := 2, Ks := 0, Kq := 1 / 4, n := 1 }
        { storage := 10, Sr := [3] }
        { slow_flow_in := 7, slow_flow_out := 0, runnoff := 0, et_loss := 0 }
        { storage := 0, Sr := [0] } 5 = some out :=
  (run_slow_flow_out_et_loss rat_arithmetic rat_reservoir
    { max_storage := 100, a := 1 / 2, b := 2, Ks := 0, Kq := 1 / 4, n := 1 }
    { storage := 10, Sr := [3] }
    { slow_flow_in := 7, slow_flow_out := 0, runnoff := 0, et_loss := 0 }
    { storage := 0, Sr := [0] } 5).1 (by simp [rat_arithmetic])

end hymod
